import Mathlib

/-!
Shallow embedding of the `shredstream-tui` ingestion-and-aggregation core
(`src/programs.rs`, `src/state.rs`, `src/client.rs`) together with proofs
about its bounded rings, duplicate detection, classification counters and
window reset. Wall-clock fields (`Instant`, `DateTime<Local>`) are outside
the embedding; `u64` counters are modelled as `Nat` reduced mod `2 ^ 64`
exactly where the source performs wrapping `fetch_add`.
-/

namespace Shredstream

/-- Wrapping 64-bit addition, the effect of `AtomicU64::fetch_add`. -/
def u64add (a b : Nat) : Nat :=
  (a + b) % 2 ^ 64

-- ============================================================================
-- programs.rs
-- ============================================================================

/-- Program categories from `programs.rs` (`enum ProgramCategory`). -/
inductive ProgramCategory where
  | Dex
  | Lending
  | Staking
  | Mev
  | Token
  | Other
deriving DecidableEq

/-- Program metadata from `programs.rs` (`struct ProgramInfo`). -/
structure ProgramInfo where
  name : String
  category : ProgramCategory
deriving DecidableEq

/-- Account identifiers are base58 strings; the source parses them into
`Pubkey` values, compared for equality only, so strings are a faithful model. -/
abbrev Pubkey := String

/-- The static registry built by `KnownPrograms::get_all()` in `programs.rs`. -/
def knownProgramList : List (Pubkey × ProgramInfo) :=
  [ ("JUP6LkbZbjS1jKKwapdHNy74zcZ3tLUZoi5QNyVTaV4", ⟨"Jupiter V6", ProgramCategory.Dex⟩),
    ("jupoNjAxXgZ4rjzxzPMP4oxduvQsQtZzyknqvzYNrNu", ⟨"Jupiter Limit", ProgramCategory.Dex⟩),
    ("675kPX9MHTjS2zt1qfr1NYHuzeLXfQM9H24wFSUt1Mp8", ⟨"Raydium V4", ProgramCategory.Dex⟩),
    ("CAMMCzo5YL8w4VFF8KVHrK22GGUsp5VTaW7grrKgrWqK", ⟨"Raydium CLMM", ProgramCategory.Dex⟩),
    ("CPMMoo8L3F4NbTegBCKVNunggL7H1ZpdTHKxQB5qKP1C", ⟨"Raydium CP", ProgramCategory.Dex⟩),
    ("whirLbMiicVdio4qvUfM5KAg6Ct8VwpYzGff3uctyCc", ⟨"Orca Whirlpool", ProgramCategory.Dex⟩),
    ("9W959DqEETiGZocYWCQPaJ6sBmUzgfxXfqGeTEdp3aQP", ⟨"Orca Swap", ProgramCategory.Dex⟩),
    ("LBUZKhRxPF3XUpBCjp4YzTKgLccjZhTSDM9YuVaPwxo", ⟨"Meteora DLMM", ProgramCategory.Dex⟩),
    ("Eo7WjKq67rjJQSZxS6z3YkapzY3eMj6Xy8X5EQVn5UaB", ⟨"Meteora Pools", ProgramCategory.Dex⟩),
    ("2wT8Yq49kHgDzXuPxZSaeLaH1qbmGXtEyPy64bL7aD3c", ⟨"Lifinity V2", ProgramCategory.Dex⟩),
    ("PhoeNiXZ8ByJGLkxNfZRnkUfjvmuYqLR89jjFHGqdXY", ⟨"Phoenix", ProgramCategory.Dex⟩),
    ("opnb2LAfJYbRMAHHvqjCwQxanZn7ReEHp1k81EohpZb", ⟨"OpenBook V2", ProgramCategory.Dex⟩),
    ("MFv2hWf31Z9kbCa1snEPYctwafyhdvnV7FZnsebVacA", ⟨"MarginFi", ProgramCategory.Lending⟩),
    ("KLend2g3cP87ber41DLZqb3z4DfMaBqax8Tv1Kqpvwj", ⟨"Kamino", ProgramCategory.Lending⟩),
    ("So1endDq2YkqhipRh3WViPa8hdiSpxWy6z3Z6tMCpAo", ⟨"Solend", ProgramCategory.Lending⟩),
    ("dRiftyHA39MWEi3m9aunc5MzRF1JYuBsbn6VPcn33UH", ⟨"Drift", ProgramCategory.Lending⟩),
    ("MarBmsSgKXdrN1egZf5sqe1TMai9K1rChYNDJgjq7aD", ⟨"Marinade", ProgramCategory.Staking⟩),
    ("Jito4APyf642JPZPx3hGc6WWJ8zPKtRbRs4P815Awbb", ⟨"Jito Stake", ProgramCategory.Staking⟩),
    ("5ocnV1qiCgaQR8Jb8xWnVbApfaygJ8tNoZfgPwsgx9kx", ⟨"Sanctum", ProgramCategory.Staking⟩),
    ("T1pyyaTNZsKv2WcRAB8oVnk93mLJw2XzjtVYqCsaHqt", ⟨"Jito Tips", ProgramCategory.Mev⟩),
    ("BundLEbyuDmhRKZJd7t5a3FiVqbzmdMBJhYLQbSCfvP", ⟨"Jito Bundle", ProgramCategory.Mev⟩) ]

/-- Registry lookup, the model of `HashMap::get` on `KnownPrograms::get_all()`. -/
def lookupProgram (k : Pubkey) : Option ProgramInfo :=
  (knownProgramList.find? (fun p => p.1 == k)).map Prod.snd

/-- The 8 fixed tip-collection accounts (`JITO_TIP_ACCOUNTS` in `programs.rs`). -/
def JITO_TIP_ACCOUNTS : List Pubkey :=
  [ "96gYZGLnJYVFmbjzopPSU6QiEV5fGqZNyN9nmNhvrZU5",
    "HFqU5x63VTqvQss8hp11i4bVa5Zp9xzzLnX5BQ6qB3m9",
    "Cw8CFyM9FkoMi7K7Crf6HNQqf4uEMzpKw6QNghXLvLkY",
    "ADaUMid9yfUytqMBgopwjb2DTLSokTSzL1zt6iGPPaKc",
    "DfXygSm4jCyNCybVYYK6DwvWqjKee8pbDmJGcLWNDXjh",
    "ADuUkR4vqLUMWXxW9gh6D6L8pMSawimctcNZ5pGwDcEt",
    "DttWaMuVvTiduZRnguLF7jNxTgiMBZ1hyAumKUiL2KRL",
    "3AVi9Tg9Uo68tJfuvoKvqKNWKkC5wPdSSdeBnizKZ6jT" ]

-- ============================================================================
-- state.rs: history-size constants and the bounded-ring push
-- ============================================================================

/-- Maximum log-ring size (`MAX_LOG_ENTRIES` in `state.rs`). -/
def MAX_LOG_ENTRIES : Nat := 200

/-- Maximum slot-history size (`MAX_SLOT_HISTORY` in `state.rs`). -/
def MAX_SLOT_HISTORY : Nat := 100

/-- Maximum transaction-sample ring size (`MAX_TXN_SAMPLES` in `state.rs`). -/
def MAX_TXN_SAMPLES : Nat := 50

/-- Maximum latency-sample ring size (`MAX_LATENCY_SAMPLES` in `state.rs`). -/
def MAX_LATENCY_SAMPLES : Nat := 100

/-- Maximum leader-history ring size (`MAX_LEADER_HISTORY` in `state.rs`). -/
def MAX_LEADER_HISTORY : Nat := 50

/-- Maximum bundle-record ring size (`MAX_BUNDLE_SAMPLES` in `state.rs`). -/
def MAX_BUNDLE_SAMPLES : Nat := 50

/-- Bounded-ring append, the `VecDeque` idiom used by every history in
`state.rs`: `if q.len() >= cap { q.pop_front(); } q.push_back(x)`. -/
def ringPush (cap : Nat) (q : List α) (x : α) : List α :=
  (if cap ≤ q.length then q.tail else q) ++ [x]

-- ============================================================================
-- state.rs: tracker structures (wall-clock fields omitted from the embedding)
-- ============================================================================

/-- One ingested slot (`struct SlotInfo` in `state.rs`); `received_at` and
`timestamp` are wall-clock fields outside the embedding. -/
structure SlotInfo where
  slot : Nat
  entry_count : Nat
  txn_count : Nat
  first_shred_delay_ms : Option Float
  leader : Option Pubkey
  dex_txn_count : Nat
  jito_bundle_count : Nat
  turbine_index : Option Nat

/-- A sampled transaction (`struct TxnSample` in `state.rs`). -/
structure TxnSample where
  slot : Nat
  signature : String
  programs : List String
  is_bundle : Bool
  tip_amount : Option Nat
deriving DecidableEq

/-- One latency observation (`struct LatencySample` in `state.rs`). -/
structure LatencySample where
  slot : Nat
  shred_latency_us : Nat
  leader : Option Pubkey
  region : Option String
  turbine_index : Option Nat
deriving DecidableEq

/-- Per-leader latency aggregate (`struct LeaderLatencyStats`). -/
structure LeaderLatencyStats where
  leader : Pubkey
  total_latency_us : Nat
  sample_count : Nat
  min_latency_us : Nat
  max_latency_us : Nat
deriving DecidableEq

/-- Per-region latency aggregate (`struct RegionLatencyStats`). -/
structure RegionLatencyStats where
  region : String
  total_latency_us : Nat
  sample_count : Nat
  min_latency_us : Nat
  max_latency_us : Nat
deriving DecidableEq

/-- Latency tracker (`struct LatencyStats`); the per-leader and per-region
`HashMap`s are modelled as association lists. -/
structure LatencyStats where
  samples : List LatencySample
  min_latency_us : Nat
  max_latency_us : Nat
  total_latency_us : Nat
  sample_count : Nat
  leader_latencies : List (Pubkey × LeaderLatencyStats)
  region_latencies : List (String × RegionLatencyStats)
deriving DecidableEq

/-- Per-program running count (`struct ProgramActivity`); `last_seen` omitted. -/
structure ProgramActivity where
  program_id : Pubkey
  name : String
  category : ProgramCategory
  txn_count : Nat
deriving DecidableEq

/-- Program tracker (`struct ProgramStats`); the constant `known_programs` map
is the global `knownProgramList`, so it is not duplicated as a field. -/
structure ProgramStats where
  activities : List (Pubkey × ProgramActivity)
  dex_txn_count : Nat
  lending_txn_count : Nat
  mev_txn_count : Nat
  staking_txn_count : Nat
deriving DecidableEq

/-- Per-leader slot record (`struct LeaderSlotInfo`); wall-clock fields omitted. -/
structure LeaderSlotInfo where
  slot : Nat
  leader : Pubkey
  entry_count : Nat
  txn_count : Nat
  skip : Bool
  first_shred_delay_ms : Option Float

/-- Per-leader running totals (`struct LeaderStats`); the `f64` field
`avg_latency_ms` is never written by the core, so it is omitted. -/
structure LeaderStats where
  leader : Pubkey
  slots_seen : Nat
  slots_skipped : Nat
  total_txns : Nat
deriving DecidableEq

/-- Leader tracker (`struct LeaderTracker`). -/
structure LeaderTracker where
  slot_history : List LeaderSlotInfo
  leader_stats : List (Pubkey × LeaderStats)
  current_leader : Option Pubkey
  upcoming_leaders : List (Nat × Pubkey)

/-- Turbine-tree tracker (`struct TurbineStats`); the sample ring elements
(`TurbineInfo`) carry only the fields the aggregates read. -/
structure TurbineStats where
  total_samples : Nat
  sum_index : Nat
  min_index : Nat
  max_index : Nat
  layer_0_count : Nat
  layer_1_count : Nat
  layer_2_count : Nat
  layer_3_plus_count : Nat
deriving DecidableEq

/-- A detected tip bundle (`struct BundleInfo` in `state.rs`). -/
structure BundleInfo where
  slot : Nat
  txn_count : Nat
  tip_amount : Nat
  tip_account : String
  signatures : List String
deriving DecidableEq

/-- Bundle/duplicate tracker (`struct CompetitionStats`); the `sandwiches`
ring has no producer in the source and is modelled as its (never-written)
list. -/
structure CompetitionStats where
  bundles : List BundleInfo
  duplicate_txns : List String
  bundle_count : Nat
  total_tips_lamports : Nat
  sandwich_count : Nat
  duplicate_count : Nat
deriving DecidableEq

/-- An observed wallet transaction (`struct WalletTxn`). -/
structure WalletTxn where
  slot : Nat
  signature : String
  success : Bool
  programs : List String
deriving DecidableEq

/-- Wallet monitor (`struct WalletMonitor`). -/
structure WalletMonitor where
  wallet : Option Pubkey
  transactions : List WalletTxn
  txn_count : Nat
  success_count : Nat
  fail_count : Nat
deriving DecidableEq

/-- Network-health counters (`struct NetworkHealth`). -/
structure NetworkHealth where
  fec_recovery_count : Nat
  direct_receive_count : Nat
  missed_slots : List Nat
  heartbeat_success : Nat
  heartbeat_fail : Nat
deriving DecidableEq

/-- Log levels (`enum LogLevel` in `state.rs`). -/
inductive LogLevel where
  | Info
  | Warn
  | Error
  | Debug
deriving DecidableEq

/-- A diagnostic record (`struct LogEntry`); timestamp omitted. -/
structure LogEntry where
  level : LogLevel
  message : String
deriving DecidableEq

/-- Throughput counters (`struct ShredMetrics` in `state.rs`). -/
structure ShredMetrics where
  received : Nat
  success_forward : Nat
  fail_forward : Nat
  duplicate : Nat
  recovered_count : Nat
  entry_count : Nat
  txn_count : Nat
  total_received : Nat
  total_success_forward : Nat
  total_fail_forward : Nat
  total_duplicate : Nat
  total_entries : Nat
  total_txns : Nat
deriving DecidableEq

/-- Zero-initialised metrics (`ShredMetrics::new`, via `Default`). -/
def ShredMetrics.new : ShredMetrics :=
  ⟨0, 0, 0, 0, 0, 0, 0, 0, 0, 0, 0, 0, 0⟩

/-- Window and cumulative entry/txn accumulation (`ShredMetrics::add_entry`). -/
def ShredMetrics.add_entry (m : ShredMetrics) (entry_count txn_count : Nat) :
    ShredMetrics :=
  { m with
    entry_count := u64add m.entry_count entry_count,
    txn_count := u64add m.txn_count txn_count,
    total_entries := u64add m.total_entries entry_count,
    total_txns := u64add m.total_txns txn_count }

/-- Window reset (`ShredMetrics::reset_window`): zeroes only the seven
window-scoped counters. -/
def ShredMetrics.reset_window (m : ShredMetrics) : ShredMetrics :=
  { m with
    received := 0,
    success_forward := 0,
    fail_forward := 0,
    duplicate := 0,
    entry_count := 0,
    txn_count := 0,
    recovered_count := 0 }

-- ============================================================================
-- state.rs: tracker operations used by the ingestor
-- ============================================================================

/-- Category-counter bump inside `ProgramStats::record_program`. -/
def ProgramStats.bumpCategory (ps : ProgramStats) (c : ProgramCategory) :
    ProgramStats :=
  match c with
  | ProgramCategory.Dex => { ps with dex_txn_count := u64add ps.dex_txn_count 1 }
  | ProgramCategory.Lending => { ps with lending_txn_count := u64add ps.lending_txn_count 1 }
  | ProgramCategory.Mev => { ps with mev_txn_count := u64add ps.mev_txn_count 1 }
  | ProgramCategory.Staking => { ps with staking_txn_count := u64add ps.staking_txn_count 1 }
  | _ => ps

/-- Association-list update for the `activities` map entry
(`entry(..).and_modify(..).or_insert_with(..)`). -/
def updateActivity (l : List (Pubkey × ProgramActivity)) (k : Pubkey)
    (fresh : ProgramActivity) : List (Pubkey × ProgramActivity) :=
  match l with
  | [] => [(k, fresh)]
  | (k', a) :: rest =>
    if k' == k then (k', { a with txn_count := a.txn_count + 1 }) :: rest
    else (k', a) :: updateActivity rest k fresh

/-- Per-program record (`ProgramStats::record_program` in `state.rs`): bumps
the matched category counter and the per-program activity count. -/
def ProgramStats.record_program (ps : ProgramStats) (program_id : Pubkey) :
    ProgramStats :=
  let nc : String × ProgramCategory :=
    match lookupProgram program_id with
    | some info => (info.name, info.category)
    | none => (program_id.take 8, ProgramCategory.Other)
  let ps := ps.bumpCategory nc.2
  { ps with
    activities := updateActivity ps.activities program_id
      ⟨program_id, nc.1, nc.2, 1⟩ }

/-- Bundle record (`CompetitionStats::add_bundle`). -/
def CompetitionStats.add_bundle (cs : CompetitionStats) (b : BundleInfo) :
    CompetitionStats :=
  { cs with
    bundle_count := u64add cs.bundle_count 1,
    total_tips_lamports := u64add cs.total_tips_lamports b.tip_amount,
    bundles := ringPush MAX_BUNDLE_SAMPLES cs.bundles b }

/-- Wallet record (`WalletMonitor::add_txn`). -/
def WalletMonitor.add_txn (w : WalletMonitor) (t : WalletTxn) : WalletMonitor :=
  { w with
    txn_count := u64add w.txn_count 1,
    success_count := if t.success then u64add w.success_count 1 else w.success_count,
    fail_count := if t.success then w.fail_count else u64add w.fail_count 1,
    transactions := ringPush MAX_TXN_SAMPLES w.transactions t }

-- ============================================================================
-- state.rs: AppState
-- ============================================================================

/-- The shared application state (`struct AppState` in `state.rs`), restricted
to the fields the ingestion core reads or writes; `metrics_window_start` is a
monotonic-clock reading modelled as a `Nat` tick supplied by the caller. -/
structure AppState where
  metrics : ShredMetrics
  metrics_window_start : Nat
  current_slot : Nat
  slot_history : List SlotInfo
  txn_samples : List TxnSample
  latency_stats : LatencyStats
  program_stats : ProgramStats
  leader_tracker : LeaderTracker
  turbine_stats : TurbineStats
  competition_stats : CompetitionStats
  wallet_monitor : WalletMonitor
  network_health : NetworkHealth
  logs : List LogEntry

/-- Fresh state (`AppState::new`). -/
def AppState.new : AppState where
  metrics := ShredMetrics.new
  metrics_window_start := 0
  current_slot := 0
  slot_history := []
  txn_samples := []
  latency_stats := ⟨[], 2 ^ 64 - 1, 0, 0, 0, [], []⟩
  program_stats := ⟨[], 0, 0, 0, 0⟩
  leader_tracker := ⟨[], [], none, []⟩
  turbine_stats := ⟨0, 0, 2 ^ 64 - 1, 0, 0, 0, 0, 0⟩
  competition_stats := ⟨[], [], 0, 0, 0, 0⟩
  wallet_monitor := ⟨none, [], 0, 0, 0⟩
  network_health := ⟨0, 0, [], 0, 0⟩
  logs := []

/-- Slot record (`AppState::add_slot` in `state.rs`): advances `current_slot`
only forward, appends a `SlotInfo` with the hard-coded defaults, and feeds
`ShredMetrics::add_entry`. -/
def AppState.add_slot (st : AppState) (slot entry_count txn_count : Nat) :
    AppState :=
  let current := if slot > st.current_slot then slot else st.current_slot
  { st with
    current_slot := current,
    slot_history := ringPush MAX_SLOT_HISTORY st.slot_history
      ⟨slot, entry_count, txn_count, none, none, 0, 0, none⟩,
    metrics := st.metrics.add_entry entry_count txn_count }

/-- Sample record (`AppState::add_txn_sample`). -/
def AppState.add_txn_sample (st : AppState) (slot : Nat) (signature : String)
    (programs : List String) (is_bundle : Bool) (tip_amount : Option Nat) :
    AppState :=
  { st with
    txn_samples := ringPush MAX_TXN_SAMPLES st.txn_samples
      ⟨slot, signature, programs, is_bundle, tip_amount⟩ }

/-- Window reset (`AppState::reset_metrics_window`): restarts the window clock
and delegates to `ShredMetrics::reset_window`. -/
def AppState.reset_metrics_window (st : AppState) (now : Nat) : AppState :=
  { st with
    metrics_window_start := now,
    metrics := st.metrics.reset_window }

/-- Duplicate-counter bump on the shared state
(`competition_stats.duplicate_count.fetch_add(1, ..)` in `client.rs`). -/
def AppState.bumpDuplicate (st : AppState) : AppState :=
  let cs := st.competition_stats
  { st with competition_stats := { cs with duplicate_count := u64add cs.duplicate_count 1 } }

/-- Bundle record on the shared state (`competition_stats.add_bundle(..)`). -/
def AppState.recordBundle (st : AppState) (b : BundleInfo) : AppState :=
  { st with competition_stats := st.competition_stats.add_bundle b }

/-- Wallet record on the shared state (`wallet_monitor.add_txn(..)`). -/
def AppState.recordWalletTxn (st : AppState) (t : WalletTxn) : AppState :=
  { st with wallet_monitor := st.wallet_monitor.add_txn t }

-- ============================================================================
-- client.rs: the ingestion model (`ShredstreamClient::try_subscribe` body)
-- ============================================================================

/-- A transaction as the ingestor sees it: its signature list (stringified)
and the static account keys of its message. -/
structure Txn where
  signatures : List String
  account_keys : List Pubkey
deriving DecidableEq

/-- An entry as decoded from a stream message (`solana_entry::entry::Entry`),
restricted to the field the ingestor reads. -/
structure Entry where
  transactions : List Txn
deriving DecidableEq

/-- The per-batch accumulator variables of the decode branch in
`try_subscribe` (`dex_count`, `bundle_count`, `bundle_txns`, `bundle_tip`,
`bundle_tip_account`). -/
structure BatchAcc where
  dex_count : Nat
  bundle_count : Nat
  bundle_txns : List String
  bundle_tip : Nat
  bundle_tip_account : String
deriving DecidableEq

/-- Initial per-batch accumulator. -/
def BatchAcc.init : BatchAcc := ⟨0, 0, [], 0, ""⟩

/-- Session-local ingestion state: the shared `AppState` plus the local
variables `recent_sigs` and `sig_cleanup_counter` of `try_subscribe`. -/
structure IngestState where
  app : AppState
  recent_sigs : List String
  sig_cleanup_counter : Nat

/-- Fresh ingestion session state. -/
def IngestState.init : IngestState := ⟨AppState.new, [], 0⟩

/-- Result of the per-transaction account-key scan in `try_subscribe`
(lines 137-156): matched program names, the DEX and tip flags, and the
batch-level `bundle_tip_account` it may overwrite. -/
structure KeyScan where
  program_names : List String
  is_dex : Bool
  is_jito_tip : Bool
  tip_account : String
  program_stats : ProgramStats

/-- One step of the account-key loop: tip-account test, then registry lookup
with `record_program` and the DEX-category test. -/
def scanKey (s : KeyScan) (key : Pubkey) : KeyScan :=
  let s :=
    if JITO_TIP_ACCOUNTS.contains key then
      { s with is_jito_tip := true, tip_account := key }
    else s
  match lookupProgram key with
  | some info =>
    { s with
      program_names := s.program_names ++ [info.name],
      program_stats := s.program_stats.record_program key,
      is_dex := s.is_dex || (info.category == ProgramCategory.Dex) }
  | none => s

/-- The whole account-key scan of one transaction. -/
def scanKeys (ps : ProgramStats) (tip_account : String) (keys : List Pubkey) :
    KeyScan :=
  keys.foldl scanKey ⟨[], false, false, tip_account, ps⟩

/-- Membership-test-then-insert on the seen-signature set, the duplicate
detector step in `try_subscribe` (lines 123-129): returns whether the
signature was already present and the updated set. -/
def observe (seen : List String) (sig : String) : Bool × List String :=
  if seen.contains sig then (true, seen) else (false, sig :: seen)

/-- Per-transaction processing inside the batch loop of `try_subscribe`:
empty-signature skip, duplicate detection, account-key classification,
per-batch flag accumulation, sampling and the wallet check. -/
def processTxn (st : IngestState) (acc : BatchAcc) (slot : Nat) (txn : Txn) :
    IngestState × BatchAcc :=
  match txn.signatures with
  | [] => (st, acc)
  | sig :: _ =>
    let ob := observe st.recent_sigs sig
    let st : IngestState :=
      if ob.1 then
        { st with app := st.app.bumpDuplicate }
      else { st with recent_sigs := ob.2 }
    let ks := scanKeys st.app.program_stats acc.bundle_tip_account txn.account_keys
    let st : IngestState := { st with app := { st.app with program_stats := ks.program_stats } }
    let tip_amount : Option Nat := none
    let acc : BatchAcc :=
      { acc with
        dex_count := if ks.is_dex then acc.dex_count + 1 else acc.dex_count,
        bundle_count := if ks.is_jito_tip then acc.bundle_count + 1 else acc.bundle_count,
        bundle_txns := if ks.is_jito_tip then acc.bundle_txns ++ [sig] else acc.bundle_txns,
        bundle_tip_account := ks.tip_account }
    let should_sample :=
      ks.is_dex || ks.is_jito_tip || decide (st.app.txn_samples.length < 10)
    let st : IngestState :=
      if should_sample then
        { st with app := st.app.add_txn_sample slot sig ks.program_names ks.is_jito_tip tip_amount }
      else st
    let st : IngestState :=
      match st.app.wallet_monitor.wallet with
      | some wallet =>
        if txn.account_keys.contains wallet then
          { st with app := st.app.recordWalletTxn ⟨slot, sig, true, []⟩ }
        else st
      | none => st
    (st, acc)

/-- Processing of all transactions of one entry, in order. -/
def processEntry (p : IngestState × BatchAcc) (slot : Nat) (e : Entry) :
    IngestState × BatchAcc :=
  e.transactions.foldl (fun q t => processTxn q.1 q.2 slot t) p

/-- Total transaction count of a batch, computed up front in `try_subscribe`
(`entries.iter().map(|e| e.transactions.len()).sum()`). -/
def batchTxnCount (entries : List Entry) : Nat :=
  (entries.map (fun e => e.transactions.length)).sum

/-- Decode-success handling of one stream message in `try_subscribe`, up to
but excluding the signature-set cleanup: transaction loop, bundle record,
slot record. -/
def processEntries (st : IngestState) (slot : Nat) (entries : List Entry) :
    IngestState :=
  let p := entries.foldl (fun q e => processEntry q slot e) (st, BatchAcc.init)
  let st := p.1
  let acc := p.2
  let bundle : BundleInfo :=
    ⟨slot, acc.bundle_txns.length, acc.bundle_tip, acc.bundle_tip_account, acc.bundle_txns⟩
  let st : IngestState :=
    if acc.bundle_count > 0 && !acc.bundle_txns.isEmpty then
      { st with app := st.app.recordBundle bundle }
    else st
  { st with app := st.app.add_slot slot entries.length (batchTxnCount entries) }

/-- The periodic signature-set cleanup at the end of the decode branch
(lines 223-227): increment `sig_cleanup_counter` once per decoded batch and
clear `recent_sigs` when the counter is a multiple of 1000 and the set holds
more than 50000 entries. -/
def cleanupStep (st : IngestState) : IngestState :=
  let c := u64add st.sig_cleanup_counter 1
  if c % 1000 == 0 && decide (50000 < st.recent_sigs.length) then
    { st with sig_cleanup_counter := c, recent_sigs := [] }
  else
    { st with sig_cleanup_counter := c }

/-- Full handling of one successfully decoded stream message. -/
def processBatch (st : IngestState) (slot : Nat) (entries : List Entry) :
    IngestState :=
  cleanupStep (processEntries st slot entries)

/-- A whole ingestion session: the fold of `processBatch` over the decoded
messages, from a fresh session state. -/
def runSession (msgs : List (Nat × List Entry)) : IngestState :=
  msgs.foldl (fun s m => processBatch s m.1 m.2) IngestState.init

-- ============================================================================
-- Derived classification views (pure functions of the account-key list)
-- ============================================================================

/-- Whether some account key matches a registry program of category DEX. -/
def txnIsDex (keys : List Pubkey) : Bool :=
  keys.any (fun k =>
    match lookupProgram k with
    | some info => info.category == ProgramCategory.Dex
    | none => false)

/-- Whether some account key is one of the eight tip-collection accounts. -/
def txnIsJitoTip (keys : List Pubkey) : Bool :=
  keys.any (fun k => JITO_TIP_ACCOUNTS.contains k)

/-- The display names of the registry-matched account keys, in key order. -/
def matchedProgramNames (keys : List Pubkey) : List String :=
  keys.filterMap (fun k => (lookupProgram k).map (fun info => info.name))

/-- Number of account keys matching a registry program of the given category. -/
def matchedCategoryCount (c : ProgramCategory) (keys : List Pubkey) : Nat :=
  (keys.filter (fun k =>
    match lookupProgram k with
    | some info => info.category == c
    | none => false)).length

/-- The four category counters of `ProgramStats`, selected by category
(`Token` and `Other` have no counter in the source and read as 0). -/
def ProgramStats.categoryCounter (ps : ProgramStats) (c : ProgramCategory) : Nat :=
  match c with
  | ProgramCategory.Dex => ps.dex_txn_count
  | ProgramCategory.Lending => ps.lending_txn_count
  | ProgramCategory.Mev => ps.mev_txn_count
  | ProgramCategory.Staking => ps.staking_txn_count
  | _ => 0

/-- Driving the duplicate detector over a signature list, collecting the
returned flags and the duplicate counter the client increments on `true`. -/
def observeRun (sigs : List String) : List Bool × Nat :=
  let r := sigs.foldl
    (fun (p : List Bool × Nat × List String) sig =>
      let ob := observe p.2.2 sig
      (p.1 ++ [ob.1], ((if ob.1 then p.2.1 + 1 else p.2.1), ob.2)))
    ([], (0, []))
  (r.1, r.2.1)

-- ============================================================================
-- Concrete scenario of claim C2
-- ============================================================================

/-- The C2 batch for slot 100: txn 1 matches exactly one known DEX program,
txn 2 references a tip-collection account, txn 3 repeats txn 1's signature. -/
def c2Batch : List Entry :=
  [ ⟨[ ⟨["sigA"], ["JUP6LkbZbjS1jKKwapdHNy74zcZ3tLUZoi5QNyVTaV4"]⟩,
       ⟨["sigB"], ["96gYZGLnJYVFmbjzopPSU6QiEV5fGqZNyN9nmNhvrZU5"]⟩,
       ⟨["sigA"], []⟩ ]⟩ ]

-- ============================================================================
-- Claim propositions under test (formalised from the claim wording)
-- ============================================================================

/-- Claim C5 as stated: each of the four category counters is incremented at
most once per transaction — exactly once for each category with at least one
matched program among the transaction's account keys. -/
def categoryOncePerTxnClaim : Prop :=
  ∀ (ps : ProgramStats) (tip : String) (keys : List Pubkey)
    (c : ProgramCategory),
    (c = ProgramCategory.Dex ∨ c = ProgramCategory.Lending ∨
     c = ProgramCategory.Mev ∨ c = ProgramCategory.Staking) →
    (scanKeys ps tip keys).program_stats.categoryCounter c =
      u64add (ps.categoryCounter c)
        (if 0 < matchedCategoryCount c keys then 1 else 0)

/-- Observation count of a batch: the transactions with at least one
signature, exactly those the duplicate detector tests. -/
def batchObsCount (entries : List Entry) : Nat :=
  ((entries.flatMap (fun e => e.transactions)).filter
    (fun t => !t.signatures.isEmpty)).length

/-- Observations performed during the first `k` decoded messages. -/
def obsUpTo (msgs : List (Nat × List Entry)) (k : Nat) : Nat :=
  ((msgs.take k).map (fun m => batchObsCount m.2)).sum

/-- Session state after the first `k` decoded messages. -/
def stateAfter (msgs : List (Nat × List Entry)) (k : Nat) : IngestState :=
  (msgs.take k).foldl (fun s m => processBatch s m.1 m.2) IngestState.init

/-- The mid-state of message `k`: its transactions processed, cleanup not yet
applied — the point where the clear decision is made. -/
def midState (msgs : List (Nat × List Entry)) (k : Nat) : IngestState :=
  processEntries (stateAfter msgs k) (msgs.getD k (0, [])).1 (msgs.getD k (0, [])).2

/-- Whether the decode branch clears the seen-signature set at the end of
message `k` of the session. -/
def clearedAt (msgs : List (Nat × List Entry)) (k : Nat) : Bool :=
  (u64add (midState msgs k).sig_cleanup_counter 1) % 1000 == 0 &&
    decide (50000 < (midState msgs k).recent_sigs.length)

/-- Claim C4 as stated: the seen-signature set is cleared exactly at those
points where the number of observations performed so far is a positive
multiple of 1000 and the set size at that point exceeds 50000 entries. -/
def dupCleanupClaim : Prop :=
  ∀ (msgs : List (Nat × List Entry)) (k : Nat), k < msgs.length →
    (clearedAt msgs k = true ↔
      (0 < obsUpTo msgs (k + 1) ∧ obsUpTo msgs (k + 1) % 1000 = 0 ∧
       50000 < (midState msgs k).recent_sigs.length))

-- ============================================================================
-- Concrete session refuting the C4 claim
-- ============================================================================

/-- Pairwise-distinct signatures with known lengths. -/
def natSig (n : Nat) : String := ⟨List.replicate n 'a'⟩

/-- A transaction with one fresh signature and no account keys. -/
def c4Txn (n : Nat) : Txn := ⟨[natSig n], []⟩

/-- Message `j` of the refuting session: one entry of 50 fresh transactions. -/
def c4Batch (j : Nat) : List Entry :=
  [⟨(List.range' (50 * j) 50).map c4Txn⟩]

/-- The refuting session: 1020 decoded messages of 50 observations each, so
51000 observations in total with 51000 distinct signatures. -/
def c4Session : List (Nat × List Entry) :=
  (List.range 1020).map (fun j => (j, c4Batch j))

end Shredstream

namespace Shredstream

-- ============================================================================
-- Theorems
-- ============================================================================

/-- Folding `ringPush` keeps exactly the last `min (length, cap)` values. -/
theorem ringPush_foldl_eq (cap : Nat) (hC : 0 < cap) (xs : List α) :
    xs.foldl (ringPush cap) [] = xs.drop (xs.length - cap) := by
  induction xs using List.reverseRecOn with
  | nil => simp
  | append_singleton ys y ih =>
    rw [List.foldl_append, List.foldl_cons, List.foldl_nil, ih, ringPush]
    have hd : (ys.drop (ys.length - cap)).length = ys.length - (ys.length - cap) := by
      simp
    by_cases h : cap ≤ ys.length
    · rw [if_pos (by omega), List.tail_drop]
      have hlen : (ys ++ [y]).length - cap = ys.length - cap + 1 := by
        simp; omega
      rw [hlen, List.drop_append_of_le_length (by omega)]
    · rw [if_neg (by omega)]
      have h0 : ys.length - cap = 0 := by omega
      have h1 : (ys ++ [y]).length - cap = 0 := by simp; omega
      rw [h0, h1, List.drop_zero, List.drop_zero]

/-- Ring length after a fold is `min (number of appends) capacity`. -/
theorem ringPush_foldl_spec (cap : Nat) (hC : 0 < cap) (xs : List α) :
    (xs.foldl (ringPush cap) []).length = min xs.length cap ∧
    xs.foldl (ringPush cap) [] = xs.drop (xs.length - cap) := by
  have hv := ringPush_foldl_eq cap hC xs
  refine ⟨?_, hv⟩
  rw [hv, List.length_drop]
  omega

/-- C1: every bounded ring of the program (slot history, txn samples, latency
samples, leader history, bundle records, log entries) with its fixed capacity
holds, after any sequence of appends, exactly `min (N, C)` elements, and those
are the last `min (N, C)` appended values in insertion order (FIFO eviction of
the oldest before each append once full). -/
theorem ring_capacity_fifo (C : Nat)
    (hC : C = MAX_LOG_ENTRIES ∨ C = MAX_SLOT_HISTORY ∨ C = MAX_TXN_SAMPLES ∨
          C = MAX_LATENCY_SAMPLES ∨ C = MAX_LEADER_HISTORY ∨ C = MAX_BUNDLE_SAMPLES)
    (xs : List α) :
    (xs.foldl (ringPush C) []).length = min xs.length C ∧
    xs.foldl (ringPush C) [] = xs.drop (xs.length - C) := by
  have hpos : 0 < C := by
    rcases hC with h | h | h | h | h | h <;> subst h <;> decide
  exact ringPush_foldl_spec C hpos xs

/-- Witness for `ring_capacity_fifo` at the txn-sample capacity and a concrete
sequence of 53 appends. -/
theorem ring_capacity_fifo_witness :
    (MAX_TXN_SAMPLES = MAX_LOG_ENTRIES ∨ MAX_TXN_SAMPLES = MAX_SLOT_HISTORY ∨
     MAX_TXN_SAMPLES = MAX_TXN_SAMPLES ∨ MAX_TXN_SAMPLES = MAX_LATENCY_SAMPLES ∨
     MAX_TXN_SAMPLES = MAX_LEADER_HISTORY ∨ MAX_TXN_SAMPLES = MAX_BUNDLE_SAMPLES) ∧
    (((List.range 53).foldl (ringPush MAX_TXN_SAMPLES) []).length =
       min (List.range 53).length MAX_TXN_SAMPLES ∧
     (List.range 53).foldl (ringPush MAX_TXN_SAMPLES) [] =
       (List.range 53).drop ((List.range 53).length - MAX_TXN_SAMPLES)) :=
  ⟨by decide,
   ring_capacity_fifo MAX_TXN_SAMPLES (by decide) (List.range 53)⟩

/-- Per-transaction processing leaves the slot history, current slot, window
metrics and cleanup counter untouched. -/
theorem processTxn_frame (st : IngestState) (acc : BatchAcc) (slot : Nat) (t : Txn) :
    (processTxn st acc slot t).1.app.slot_history = st.app.slot_history ∧
    (processTxn st acc slot t).1.app.current_slot = st.app.current_slot ∧
    (processTxn st acc slot t).1.app.metrics = st.app.metrics ∧
    (processTxn st acc slot t).1.sig_cleanup_counter = st.sig_cleanup_counter := by
  rcases htxn : t.signatures with _ | ⟨sig, rest⟩
  · simp [processTxn, htxn]
  · simp only [processTxn, htxn]
    repeat' split
    all_goals simp [AppState.bumpDuplicate, AppState.add_txn_sample,
      AppState.recordWalletTxn, WalletMonitor.add_txn]

/-- Per-transaction processing changes the seen-signature set exactly as one
`observe` call on the first signature (no change for a signatureless txn). -/
theorem processTxn_recent_sigs (st : IngestState) (acc : BatchAcc) (slot : Nat) (t : Txn) :
    (processTxn st acc slot t).1.recent_sigs =
      (match t.signatures with
       | [] => st.recent_sigs
       | sig :: _ => (observe st.recent_sigs sig).2) := by
  rcases htxn : t.signatures with _ | ⟨sig, rest⟩
  · simp [processTxn, htxn]
  · simp only [processTxn, htxn]
    repeat' split
    all_goals simp_all [AppState.bumpDuplicate, AppState.add_txn_sample,
      AppState.recordWalletTxn, observe]
    all_goals split <;> simp_all

/-- C9: `current_slot` is monotonically non-decreasing: each `add_slot` sets it
to the maximum of its previous value and the incoming slot, so an out-of-order
lower slot never regresses it. -/
theorem current_slot_monotone (st : AppState) (slot entry_count txn_count : Nat) :
    (st.add_slot slot entry_count txn_count).current_slot = max st.current_slot slot ∧
    st.current_slot ≤ (st.add_slot slot entry_count txn_count).current_slot := by
  unfold AppState.add_slot
  constructor
  · simp only []
    split <;> omega
  · simp only []
    split <;> omega

/-- C8: `reset_metrics_window` zeroes exactly the seven window-scoped
`ShredMetrics` counters and restarts the window clock, leaving the cumulative
totals and every other tracker untouched. -/
theorem reset_metrics_window_spec (st : AppState) (now : Nat) :
    (st.reset_metrics_window now).metrics.entry_count = 0 ∧
    (st.reset_metrics_window now).metrics.txn_count = 0 ∧
    (st.reset_metrics_window now).metrics.received = 0 ∧
    (st.reset_metrics_window now).metrics.success_forward = 0 ∧
    (st.reset_metrics_window now).metrics.fail_forward = 0 ∧
    (st.reset_metrics_window now).metrics.duplicate = 0 ∧
    (st.reset_metrics_window now).metrics.recovered_count = 0 ∧
    (st.reset_metrics_window now).metrics_window_start = now ∧
    (st.reset_metrics_window now).metrics.total_entries = st.metrics.total_entries ∧
    (st.reset_metrics_window now).metrics.total_txns = st.metrics.total_txns ∧
    (st.reset_metrics_window now).metrics.total_received = st.metrics.total_received ∧
    (st.reset_metrics_window now).metrics.total_success_forward = st.metrics.total_success_forward ∧
    (st.reset_metrics_window now).metrics.total_fail_forward = st.metrics.total_fail_forward ∧
    (st.reset_metrics_window now).metrics.total_duplicate = st.metrics.total_duplicate ∧
    (st.reset_metrics_window now).program_stats = st.program_stats ∧
    (st.reset_metrics_window now).latency_stats = st.latency_stats ∧
    (st.reset_metrics_window now).leader_tracker = st.leader_tracker ∧
    (st.reset_metrics_window now).turbine_stats = st.turbine_stats ∧
    (st.reset_metrics_window now).competition_stats = st.competition_stats ∧
    (st.reset_metrics_window now).wallet_monitor = st.wallet_monitor ∧
    (st.reset_metrics_window now).network_health = st.network_health ∧
    (st.reset_metrics_window now).current_slot = st.current_slot ∧
    (st.reset_metrics_window now).slot_history = st.slot_history ∧
    (st.reset_metrics_window now).txn_samples = st.txn_samples ∧
    (st.reset_metrics_window now).logs = st.logs := by
  repeat' constructor

/-- C3: `observe` returns `true` exactly when the signature is already in the
seen-set and inserts it when absent; on `[a, b, a, c, a]` it returns
`[false, false, true, false, true]` and drives the duplicate counter to 2. -/
theorem observe_spec (seen : List String) (sig : String) :
    ((observe seen sig).1 = true ↔ sig ∈ seen) ∧
    (observe seen sig).2 = (if sig ∈ seen then seen else sig :: seen) ∧
    observeRun ["a", "b", "a", "c", "a"] = ([false, false, true, false, true], 2) := by
  refine ⟨?_, ?_, by decide⟩
  · by_cases h : sig ∈ seen <;> simp [observe, h]
  · by_cases h : sig ∈ seen <;> simp [observe, h]

/-- C6: a transaction with an empty signature list is skipped entirely — the
session state and batch accumulator are returned unchanged (no lookups, no
counters, no duplicate check, no sampling, no wallet check) — while the batch
transaction count still counts it. -/
theorem empty_signature_skip (st : IngestState) (acc : BatchAcc) (slot : Nat)
    (txn : Txn) (h : txn.signatures = []) (pre post : List Txn) :
    processTxn st acc slot txn = (st, acc) ∧
    batchTxnCount [⟨pre ++ txn :: post⟩] = pre.length + post.length + 1 := by
  constructor
  · unfold processTxn
    rw [h]
  · simp [batchTxnCount]
    omega

/-- Witness for `empty_signature_skip` at a concrete signatureless txn. -/
theorem empty_signature_skip_witness :
    (Txn.mk [] ["k1"]).signatures = [] ∧
    (processTxn IngestState.init BatchAcc.init 7 (Txn.mk [] ["k1"]) =
       (IngestState.init, BatchAcc.init) ∧
     batchTxnCount [⟨([] : List Txn) ++ Txn.mk [] ["k1"] :: ([] : List Txn)⟩] =
       ([] : List Txn).length + ([] : List Txn).length + 1) :=
  ⟨rfl, empty_signature_skip IngestState.init BatchAcc.init 7 (Txn.mk [] ["k1"]) rfl [] []⟩

/-- One key-scan step, fully characterised. -/
theorem scanKey_spec (s : KeyScan) (k : Pubkey) :
    (scanKey s k).is_dex
      = (s.is_dex ||
         (match lookupProgram k with
          | some info => info.category == ProgramCategory.Dex
          | none => false)) ∧
    (scanKey s k).is_jito_tip = (s.is_jito_tip || JITO_TIP_ACCOUNTS.contains k) ∧
    (scanKey s k).program_names
      = (s.program_names ++
         (match lookupProgram k with
          | some info => [info.name]
          | none => [])) ∧
    (scanKey s k).program_stats
      = (match lookupProgram k with
         | some _ => s.program_stats.record_program k
         | none => s.program_stats) ∧
    (scanKey s k).tip_account
      = (if JITO_TIP_ACCOUNTS.contains k then k else s.tip_account) := by
  unfold scanKey
  rcases h : lookupProgram k with _ | info <;>
    by_cases ht : k ∈ JITO_TIP_ACCOUNTS <;>
    simp [h, ht]

/-- The key-scan fold, characterised against the pure classification views. -/
theorem scanKeys_foldl_spec (keys : List Pubkey) (s : KeyScan) :
    ((keys.foldl scanKey s).is_dex = (s.is_dex || txnIsDex keys)) ∧
    ((keys.foldl scanKey s).is_jito_tip = (s.is_jito_tip || txnIsJitoTip keys)) ∧
    ((keys.foldl scanKey s).program_names = s.program_names ++ matchedProgramNames keys) := by
  induction keys generalizing s with
  | nil => simp [txnIsDex, txnIsJitoTip, matchedProgramNames]
  | cons k ks ih =>
    obtain ⟨h1, h2, h3, h4, h5⟩ := scanKey_spec s k
    obtain ⟨i1, i2, i3⟩ := ih (scanKey s k)
    refine ⟨?_, ?_, ?_⟩
    · rw [List.foldl_cons, i1, h1]
      simp only [txnIsDex, List.any_cons, Bool.or_assoc]
    · rw [List.foldl_cons, i2, h2]
      simp only [txnIsJitoTip, List.any_cons, Bool.or_assoc]
    · rw [List.foldl_cons, i3, h3]
      rcases h : lookupProgram k with _ | info <;>
        simp [matchedProgramNames, h]

/-- DEX flag of the key scan is a pure function of the key list. -/
theorem scanKeys_is_dex (ps : ProgramStats) (tip : String) (keys : List Pubkey) :
    (scanKeys ps tip keys).is_dex = txnIsDex keys := by
  have h := scanKeys_foldl_spec keys ⟨[], false, false, tip, ps⟩
  simpa [scanKeys] using h.1

/-- Tip flag of the key scan is a pure function of the key list. -/
theorem scanKeys_is_jito_tip (ps : ProgramStats) (tip : String) (keys : List Pubkey) :
    (scanKeys ps tip keys).is_jito_tip = txnIsJitoTip keys := by
  have h := scanKeys_foldl_spec keys ⟨[], false, false, tip, ps⟩
  simpa [scanKeys] using h.2.1

/-- Matched names of the key scan are a pure function of the key list. -/
theorem scanKeys_program_names (ps : ProgramStats) (tip : String) (keys : List Pubkey) :
    (scanKeys ps tip keys).program_names = matchedProgramNames keys := by
  have h := scanKeys_foldl_spec keys ⟨[], false, false, tip, ps⟩
  simpa [scanKeys] using h.2.2

/-- C7: a transaction with at least one signature is sampled exactly when it is
DEX-flagged, tip-flagged, or the sample ring holds fewer than 10 entries at the
decision point; otherwise the sample ring is untouched. -/
theorem sampling_policy (st : IngestState) (acc : BatchAcc) (slot : Nat)
    (txn : Txn) (sig : String) (rest : List String)
    (h : txn.signatures = sig :: rest) :
    (processTxn st acc slot txn).1.app.txn_samples =
      (if txnIsDex txn.account_keys || txnIsJitoTip txn.account_keys ||
          decide (st.app.txn_samples.length < 10) then
         ringPush MAX_TXN_SAMPLES st.app.txn_samples
           ⟨slot, sig, matchedProgramNames txn.account_keys,
            txnIsJitoTip txn.account_keys, none⟩
       else st.app.txn_samples) := by
  simp only [processTxn, h]
  repeat' split
  all_goals
    simp_all [AppState.bumpDuplicate, AppState.add_txn_sample,
      AppState.recordWalletTxn, WalletMonitor.add_txn,
      scanKeys_is_dex, scanKeys_is_jito_tip, scanKeys_program_names]

/-- Witness for `sampling_policy` on a fresh state and a one-signature txn. -/
theorem sampling_policy_witness :
    (Txn.mk ["s1"] []).signatures = "s1" :: [] ∧
    (processTxn IngestState.init BatchAcc.init 3 (Txn.mk ["s1"] [])).1.app.txn_samples =
      (if txnIsDex (Txn.mk ["s1"] []).account_keys ||
          txnIsJitoTip (Txn.mk ["s1"] []).account_keys ||
          decide (IngestState.init.app.txn_samples.length < 10) then
         ringPush MAX_TXN_SAMPLES IngestState.init.app.txn_samples
           ⟨3, "s1", matchedProgramNames (Txn.mk ["s1"] []).account_keys,
            txnIsJitoTip (Txn.mk ["s1"] []).account_keys, none⟩
       else IngestState.init.app.txn_samples) :=
  ⟨rfl, sampling_policy IngestState.init BatchAcc.init 3 (Txn.mk ["s1"] []) "s1" [] rfl⟩

/-- Composition of wrapping additions. -/
theorem u64add_u64add (a b c : Nat) : u64add (u64add a b) c = u64add a (b + c) := by
  simp only [u64add]
  rw [Nat.mod_add_mod, Nat.add_assoc]

/-- Effect of one `record_program` call on a category counter. -/
theorem record_program_counter (ps : ProgramStats) (k : Pubkey) (c : ProgramCategory)
    (hc : c = ProgramCategory.Dex ∨ c = ProgramCategory.Lending ∨
          c = ProgramCategory.Mev ∨ c = ProgramCategory.Staking) :
    (ps.record_program k).categoryCounter c =
      (if (match lookupProgram k with
           | some info => info.category == c
           | none => false) then u64add (ps.categoryCounter c) 1
       else ps.categoryCounter c) := by
  unfold ProgramStats.record_program
  rcases h : lookupProgram k with _ | info
  · rcases hc with rfl | rfl | rfl | rfl <;>
      simp [h, ProgramStats.bumpCategory, ProgramStats.categoryCounter]
  · rcases hc with rfl | rfl | rfl | rfl <;>
      rcases hcat : info.category <;>
      simp [h, hcat, ProgramStats.bumpCategory, ProgramStats.categoryCounter]

/-- The key-scan fold bumps each category counter once per matched key of that
category. -/
theorem scanKeys_foldl_category (keys : List Pubkey) (s : KeyScan) (c : ProgramCategory)
    (hc : c = ProgramCategory.Dex ∨ c = ProgramCategory.Lending ∨
          c = ProgramCategory.Mev ∨ c = ProgramCategory.Staking)
    (hlt : s.program_stats.categoryCounter c < 2 ^ 64) :
    (keys.foldl scanKey s).program_stats.categoryCounter c =
      u64add (s.program_stats.categoryCounter c) (matchedCategoryCount c keys) := by
  induction keys generalizing s with
  | nil =>
    simp only [List.foldl_nil, matchedCategoryCount, List.filter_nil,
      List.length_nil, u64add]
    omega
  | cons k ks ih =>
    obtain ⟨h1, h2, h3, h4, h5⟩ := scanKey_spec s k
    have hlt' : (scanKey s k).program_stats.categoryCounter c < 2 ^ 64 := by
      rw [h4]
      rcases h : lookupProgram k with _ | info
      · exact hlt
      · rw [record_program_counter _ _ _ hc]
        split
        · unfold u64add
          exact Nat.mod_lt _ (by norm_num)
        · exact hlt
    rw [List.foldl_cons, ih (scanKey s k) hlt', h4]
    rcases h : lookupProgram k with _ | info
    · simp [matchedCategoryCount, h]
    · rw [record_program_counter _ _ _ hc]
      simp only [h]
      rcases hmatch : info.category == c
      · simp [hmatch, matchedCategoryCount, h]
      · simp only [hmatch, if_true]
        rw [u64add_u64add]
        have hcnt : matchedCategoryCount c (k :: ks) = matchedCategoryCount c ks + 1 := by
          simp [matchedCategoryCount, h, hmatch]
        rw [hcnt]
        congr 1
        omega

/-- C5 counterexample: a transaction whose account keys match two distinct DEX
programs (Jupiter V6 and Raydium V4) bumps `dex_txn_count` by 2, refuting the
once-per-category-per-transaction claim. -/
theorem category_once_counterexample : ¬ categoryOncePerTxnClaim := fun h =>
  absurd
    (h ⟨[], 0, 0, 0, 0⟩ ""
      ["JUP6LkbZbjS1jKKwapdHNy74zcZ3tLUZoi5QNyVTaV4",
       "675kPX9MHTjS2zt1qfr1NYHuzeLXfQM9H24wFSUt1Mp8"]
      ProgramCategory.Dex (Or.inl rfl))
    (by decide)

/-- C5 amended: each of the four category counters is incremented once per
registry-matched account key of that category — so a transaction matching two
programs of different categories increments both counters by 1, while one
matching two programs of the same category increments that counter by 2. -/
theorem category_counter_per_match (ps : ProgramStats) (tip : String) (keys : List Pubkey)
    (hdex : ps.dex_txn_count < 2 ^ 64) (hlend : ps.lending_txn_count < 2 ^ 64)
    (hmev : ps.mev_txn_count < 2 ^ 64) (hstake : ps.staking_txn_count < 2 ^ 64) :
    (scanKeys ps tip keys).program_stats.dex_txn_count =
      u64add ps.dex_txn_count (matchedCategoryCount ProgramCategory.Dex keys) ∧
    (scanKeys ps tip keys).program_stats.lending_txn_count =
      u64add ps.lending_txn_count (matchedCategoryCount ProgramCategory.Lending keys) ∧
    (scanKeys ps tip keys).program_stats.mev_txn_count =
      u64add ps.mev_txn_count (matchedCategoryCount ProgramCategory.Mev keys) ∧
    (scanKeys ps tip keys).program_stats.staking_txn_count =
      u64add ps.staking_txn_count (matchedCategoryCount ProgramCategory.Staking keys) :=
  ⟨scanKeys_foldl_category keys _ ProgramCategory.Dex (Or.inl rfl) hdex,
   scanKeys_foldl_category keys _ ProgramCategory.Lending (Or.inr (Or.inl rfl)) hlend,
   scanKeys_foldl_category keys _ ProgramCategory.Mev (Or.inr (Or.inr (Or.inl rfl))) hmev,
   scanKeys_foldl_category keys _ ProgramCategory.Staking (Or.inr (Or.inr (Or.inr rfl))) hstake⟩

/-- Witness for `category_counter_per_match` at a fresh tracker and the two
Jupiter/Raydium DEX keys. -/
theorem category_counter_per_match_witness :
    (0 : Nat) < 2 ^ 64 ∧
    ((scanKeys ⟨[], 0, 0, 0, 0⟩ ""
        ["JUP6LkbZbjS1jKKwapdHNy74zcZ3tLUZoi5QNyVTaV4",
         "675kPX9MHTjS2zt1qfr1NYHuzeLXfQM9H24wFSUt1Mp8"]).program_stats.dex_txn_count =
      u64add 0 (matchedCategoryCount ProgramCategory.Dex
        ["JUP6LkbZbjS1jKKwapdHNy74zcZ3tLUZoi5QNyVTaV4",
         "675kPX9MHTjS2zt1qfr1NYHuzeLXfQM9H24wFSUt1Mp8"])) :=
  ⟨by decide,
   (category_counter_per_match ⟨[], 0, 0, 0, 0⟩ ""
      ["JUP6LkbZbjS1jKKwapdHNy74zcZ3tLUZoi5QNyVTaV4",
       "675kPX9MHTjS2zt1qfr1NYHuzeLXfQM9H24wFSUt1Mp8"]
      (by decide) (by decide) (by decide) (by decide)).1⟩

/-- C2: processing the slot-100 batch (txn 1 matching exactly one known DEX
program, txn 2 referencing a tip-collection account, txn 3 repeating txn 1's
signature) increments the DEX category counter by exactly 1, the bundle
counter by exactly 1 with a `BundleInfo` for slot 100 holding txn 2's
signature, the duplicate counter by exactly 1, and appends a `SlotInfo` for
slot 100 with `txn_count` 3. -/
theorem scenario_slot100 :
    (processBatch IngestState.init 100 c2Batch).app.program_stats.dex_txn_count = 1 ∧
    (processBatch IngestState.init 100 c2Batch).app.competition_stats.bundle_count = 1 ∧
    (processBatch IngestState.init 100 c2Batch).app.competition_stats.bundles.map
      (fun b => (b.slot, b.signatures)) = [(100, ["sigB"])] ∧
    (processBatch IngestState.init 100 c2Batch).app.competition_stats.duplicate_count = 1 ∧
    (processBatch IngestState.init 100 c2Batch).app.slot_history.map
      (fun s => (s.slot, s.txn_count)) = [(100, 3)] := by
  decide

/-- The cleanup step acts only on the session-local fields. -/
theorem cleanupStep_app (st : IngestState) : (cleanupStep st).app = st.app := by
  unfold cleanupStep
  dsimp only
  split <;> rfl

/-- C10: every `SlotInfo` the ingestor appends carries the hard-coded defaults
(`dex_txn_count = 0`, `jito_bundle_count = 0`, `leader = none`,
`first_shred_delay_ms = none`, `turbine_index = none`) and the up-front batch
counts — the per-batch dex/bundle tallies are never stored in it. -/
theorem slot_info_defaults (st : IngestState) (slot : Nat) (entries : List Entry) :
    (processBatch st slot entries).app.slot_history.getLast? =
      some ⟨slot, entries.length, batchTxnCount entries, none, none, 0, 0, none⟩ := by
  unfold processBatch
  rw [cleanupStep_app]
  simp [processEntries, AppState.add_slot, AppState.recordBundle, ringPush]

-- ============================================================================
-- C4: duplicate-set cleanup policy
-- ============================================================================

/-- Length of the fresh signatures. -/
theorem natSig_length (n : Nat) : (natSig n).length = n := by
  simp [natSig, String.length]

/-- The transaction fold of a batch preserves the cleanup counter and only
extends the seen-signature set. -/
theorem txnFold_counter_suffix (slot : Nat) (ts : List Txn) (p : IngestState × BatchAcc) :
    (ts.foldl (fun q t => processTxn q.1 q.2 slot t) p).1.sig_cleanup_counter =
      p.1.sig_cleanup_counter ∧
    List.IsSuffix p.1.recent_sigs
      (ts.foldl (fun q t => processTxn q.1 q.2 slot t) p).1.recent_sigs := by
  induction ts generalizing p with
  | nil => exact ⟨rfl, List.suffix_refl _⟩
  | cons t ts ih =>
    rw [List.foldl_cons]
    obtain ⟨i1, i2⟩ := ih (processTxn p.1 p.2 slot t)
    refine ⟨by rw [i1, (processTxn_frame p.1 p.2 slot t).2.2.2], ?_⟩
    refine List.IsSuffix.trans ?_ i2
    rw [processTxn_recent_sigs p.1 p.2 slot t]
    rcases t.signatures with _ | ⟨sig, rest⟩
    · exact List.suffix_refl _
    · unfold observe
      dsimp only
      split
      · exact List.suffix_refl _
      · exact List.suffix_cons _ _

/-- The entry fold of a batch preserves the cleanup counter and only extends
the seen-signature set. -/
theorem entriesFold_counter_suffix (slot : Nat) (es : List Entry) (p : IngestState × BatchAcc) :
    (es.foldl (fun q e => processEntry q slot e) p).1.sig_cleanup_counter =
      p.1.sig_cleanup_counter ∧
    List.IsSuffix p.1.recent_sigs
      (es.foldl (fun q e => processEntry q slot e) p).1.recent_sigs := by
  induction es generalizing p with
  | nil => exact ⟨rfl, List.suffix_refl _⟩
  | cons e es ih =>
    rw [List.foldl_cons]
    obtain ⟨i1, i2⟩ := ih (processEntry p slot e)
    obtain ⟨j1, j2⟩ := txnFold_counter_suffix slot e.transactions p
    exact ⟨by rw [i1]; exact j1, List.IsSuffix.trans j2 i2⟩

/-- The session-local fields of `processEntries` come from the txn fold. -/
theorem processEntries_recent_sigs (st : IngestState) (slot : Nat) (entries : List Entry) :
    (processEntries st slot entries).recent_sigs =
      (entries.foldl (fun q e => processEntry q slot e) (st, BatchAcc.init)).1.recent_sigs := by
  unfold processEntries
  dsimp only
  split <;> rfl

/-- The cleanup counter of `processEntries` comes from the txn fold. -/
theorem processEntries_counter (st : IngestState) (slot : Nat) (entries : List Entry) :
    (processEntries st slot entries).sig_cleanup_counter =
      (entries.foldl (fun q e => processEntry q slot e) (st, BatchAcc.init)).1.sig_cleanup_counter := by
  unfold processEntries
  dsimp only
  split <;> rfl

/-- Transaction processing of a whole batch preserves the cleanup counter and
only extends the seen-signature set. -/
theorem processEntries_session_frame (st : IngestState) (slot : Nat) (es : List Entry) :
    (processEntries st slot es).sig_cleanup_counter = st.sig_cleanup_counter ∧
    List.IsSuffix st.recent_sigs (processEntries st slot es).recent_sigs := by
  constructor
  · rw [processEntries_counter]
    exact (entriesFold_counter_suffix slot es (st, BatchAcc.init)).1
  · rw [processEntries_recent_sigs]
    exact (entriesFold_counter_suffix slot es (st, BatchAcc.init)).2

/-- C4 amended: the cleanup is driven by the count of decoded batches, not by
observation count: each decoded batch increments `sig_cleanup_counter` by one
(wrapping), and the seen-signature set is cleared exactly when the incremented
counter is a multiple of 1000 and the set then holds more than 50000 entries;
observations themselves never clear or shrink the set. -/
theorem dup_cleanup_policy (st : IngestState) (slot : Nat) (entries : List Entry) :
    (processBatch st slot entries).sig_cleanup_counter =
      u64add (processEntries st slot entries).sig_cleanup_counter 1 ∧
    (processEntries st slot entries).sig_cleanup_counter = st.sig_cleanup_counter ∧
    ((u64add (processEntries st slot entries).sig_cleanup_counter 1) % 1000 = 0 ∧
       50000 < (processEntries st slot entries).recent_sigs.length →
     (processBatch st slot entries).recent_sigs = []) ∧
    (¬ ((u64add (processEntries st slot entries).sig_cleanup_counter 1) % 1000 = 0 ∧
        50000 < (processEntries st slot entries).recent_sigs.length) →
     (processBatch st slot entries).recent_sigs =
       (processEntries st slot entries).recent_sigs) ∧
    List.IsSuffix st.recent_sigs (processEntries st slot entries).recent_sigs := by
  refine ⟨?_, (processEntries_session_frame st slot entries).1, ?_, ?_,
    (processEntries_session_frame st slot entries).2⟩
  · unfold processBatch cleanupStep
    dsimp only
    split <;> rfl
  · intro hcond
    unfold processBatch cleanupStep
    dsimp only
    rw [if_pos (by simp only [Bool.and_eq_true, beq_iff_eq, decide_eq_true_eq]; exact hcond)]
  · intro hcond
    unfold processBatch cleanupStep
    dsimp only
    rw [if_neg (by simp only [Bool.and_eq_true, beq_iff_eq, decide_eq_true_eq]; exact hcond)]

/-- Witness for `dup_cleanup_policy` at an empty batch on a fresh session. -/
theorem dup_cleanup_policy_witness :
    ¬ ((u64add (processEntries IngestState.init 0 []).sig_cleanup_counter 1) % 1000 = 0 ∧
       50000 < (processEntries IngestState.init 0 []).recent_sigs.length) ∧
    (processBatch IngestState.init 0 []).recent_sigs =
      (processEntries IngestState.init 0 []).recent_sigs :=
  ⟨by decide, (dup_cleanup_policy IngestState.init 0 []).2.2.2.1 (by decide)⟩

/-- Indexing the refuting session. -/
theorem c4Session_getD (k : Nat) (hk : k < 1020) :
    c4Session.getD k (0, []) = (k, c4Batch k) := by
  unfold c4Session
  rw [List.getD_eq_getElem?_getD, List.getElem?_map, List.getElem?_range hk]
  rfl

/-- Unfolding one step of `stateAfter`. -/
theorem stateAfter_succ (msgs : List (Nat × List Entry)) (k : Nat) (hk : k < msgs.length) :
    stateAfter msgs (k + 1) =
      processBatch (stateAfter msgs k) (msgs.getD k (0, [])).1 (msgs.getD k (0, [])).2 := by
  unfold stateAfter
  rw [List.take_succ, List.foldl_append, List.getElem?_eq_getElem hk,
    List.getD_eq_getElem?_getD, List.getElem?_eq_getElem hk]
  rfl

/-- The fold over one refuting batch: 50 fresh distinct signatures enter the
set, the counter is untouched. -/
theorem c4_txnFold (slot : Nat) (m : Nat) : ∀ (a : Nat) (p : IngestState × BatchAcc),
    (∀ s ∈ p.1.recent_sigs, s.length < a) →
    ((((List.range' a m).map c4Txn).foldl
        (fun q t => processTxn q.1 q.2 slot t) p).1.recent_sigs.length =
       p.1.recent_sigs.length + m ∧
     (∀ s ∈ (((List.range' a m).map c4Txn).foldl
        (fun q t => processTxn q.1 q.2 slot t) p).1.recent_sigs, s.length < a + m) ∧
     (((List.range' a m).map c4Txn).foldl
        (fun q t => processTxn q.1 q.2 slot t) p).1.sig_cleanup_counter =
       p.1.sig_cleanup_counter) := by
  induction m with
  | zero =>
    intro a p hmem
    exact ⟨rfl, by simpa using hmem, rfl⟩
  | succ m ih =>
    intro a p hmem
    rw [List.range'_succ a m 1, List.map_cons, List.foldl_cons]
    have hnotmem : p.1.recent_sigs.contains (natSig a) = false := by
      by_cases hc : p.1.recent_sigs.contains (natSig a)
      · exfalso
        have hm : natSig a ∈ p.1.recent_sigs := by simpa using hc
        have := hmem _ hm
        rw [natSig_length] at this
        omega
      · simpa using hc
    have hrec : (processTxn p.1 p.2 slot (c4Txn a)).1.recent_sigs =
        natSig a :: p.1.recent_sigs := by
      rw [processTxn_recent_sigs]
      show (observe p.1.recent_sigs (natSig a)).2 = _
      unfold observe
      rw [hnotmem]
      rfl
    have hcnt : (processTxn p.1 p.2 slot (c4Txn a)).1.sig_cleanup_counter =
        p.1.sig_cleanup_counter :=
      (processTxn_frame p.1 p.2 slot (c4Txn a)).2.2.2
    have hmem' : ∀ s ∈ (processTxn p.1 p.2 slot (c4Txn a)).1.recent_sigs,
        s.length < a + 1 := by
      intro s hs
      rw [hrec] at hs
      rcases List.mem_cons.mp hs with hs' | hs'
      · rw [hs', natSig_length]
        omega
      · have := hmem _ hs'
        omega
    obtain ⟨i1, i2, i3⟩ := ih (a + 1) (processTxn p.1 p.2 slot (c4Txn a)) hmem'
    refine ⟨?_, ?_, ?_⟩
    · rw [i1, hrec, List.length_cons]
      omega
    · intro s hs
      have := i2 s hs
      omega
    · rw [i3, hcnt]

/-- One refuting batch through `processEntries`: counter unchanged, 50 fresh
signatures added, all bounded. -/
theorem c4_processEntries (j slot : Nat) (st : IngestState)
    (hmem : ∀ s ∈ st.recent_sigs, s.length < 50 * j) :
    (processEntries st slot (c4Batch j)).sig_cleanup_counter = st.sig_cleanup_counter ∧
    (processEntries st slot (c4Batch j)).recent_sigs.length = st.recent_sigs.length + 50 ∧
    ∀ s ∈ (processEntries st slot (c4Batch j)).recent_sigs, s.length < 50 * j + 50 := by
  obtain ⟨h1, h2, h3⟩ := c4_txnFold slot 50 (50 * j) (st, BatchAcc.init) hmem
  have hfold : (c4Batch j).foldl (fun q e => processEntry q slot e) (st, BatchAcc.init) =
      ((List.range' (50 * j) 50).map c4Txn).foldl
        (fun q t => processTxn q.1 q.2 slot t) (st, BatchAcc.init) := by
    unfold c4Batch
    rw [List.foldl_cons, List.foldl_nil]
    rfl
  refine ⟨?_, ?_, ?_⟩
  · rw [processEntries_counter, hfold, h3]
  · rw [processEntries_recent_sigs, hfold, h1]
  · intro s hs
    rw [processEntries_recent_sigs, hfold] at hs
    exact h2 s hs

/-- A batch whose cleanup condition fails leaves the set alone and only
increments the counter. -/
theorem cleanupStep_no_clear (st : IngestState)
    (h : ((u64add st.sig_cleanup_counter 1) % 1000 == 0 &&
          decide (50000 < st.recent_sigs.length)) = false) :
    (cleanupStep st).recent_sigs = st.recent_sigs ∧
    (cleanupStep st).sig_cleanup_counter = u64add st.sig_cleanup_counter 1 := by
  unfold cleanupStep
  dsimp only
  rw [h]
  exact ⟨rfl, rfl⟩

/-- Session invariant for the refuting run: after `k ≤ 1020` batches the
cleanup counter is `k`, the set holds `50 k` signatures, all of length below
`50 k` (so, in particular, the set is never cleared along the way). -/
theorem c4_invariant : ∀ k, k ≤ 1020 →
    (stateAfter c4Session k).sig_cleanup_counter = k ∧
    (stateAfter c4Session k).recent_sigs.length = 50 * k ∧
    ∀ s ∈ (stateAfter c4Session k).recent_sigs, s.length < 50 * k := by
  intro k
  induction k with
  | zero =>
    intro _
    exact ⟨rfl, rfl, fun s hs => absurd hs (List.not_mem_nil s)⟩
  | succ k ih =>
    intro hk1
    obtain ⟨i1, i2, i3⟩ := ih (by omega)
    have hlen : c4Session.length = 1020 := by simp [c4Session]
    have hstep : stateAfter c4Session (k + 1) =
        processBatch (stateAfter c4Session k) k (c4Batch k) := by
      rw [stateAfter_succ c4Session k (by omega), c4Session_getD k (by omega)]
    obtain ⟨p1, p2, p3⟩ := c4_processEntries k k (stateAfter c4Session k) i3
    have hadd : u64add (processEntries (stateAfter c4Session k) k (c4Batch k)).sig_cleanup_counter 1
        = k + 1 := by
      rw [p1, i1]
      unfold u64add
      omega
    have hcond : ((u64add (processEntries (stateAfter c4Session k) k (c4Batch k)).sig_cleanup_counter 1) % 1000 == 0 &&
        decide (50000 < (processEntries (stateAfter c4Session k) k (c4Batch k)).recent_sigs.length)) = false := by
      rw [hadd, p2, i2]
      by_cases h1000 : k + 1 = 1000
      · have hk999 : k = 999 := by omega
        subst hk999
        decide
      · have hne : ((k + 1) % 1000 == 0) = false := by
          have hne0 : (k + 1) % 1000 ≠ 0 := by omega
          simpa using hne0
        rw [hne, Bool.false_and]
    obtain ⟨hcrec, hccount⟩ :=
      cleanupStep_no_clear (processEntries (stateAfter c4Session k) k (c4Batch k)) hcond
    have hbatch : processBatch (stateAfter c4Session k) k (c4Batch k) =
        cleanupStep (processEntries (stateAfter c4Session k) k (c4Batch k)) := rfl
    rw [hbatch] at hstep
    refine ⟨?_, ?_, ?_⟩
    · rw [hstep, hccount]
      exact hadd
    · rw [hstep, hcrec, p2, i2]
      omega
    · rw [hstep, hcrec]
      intro s hs
      have hsb := p3 s hs
      omega

/-- Per-batch observation count of the refuting session. -/
theorem c4_batchObsCount (j : Nat) : batchObsCount (c4Batch j) = 50 := by
  unfold batchObsCount c4Batch
  simp only [List.flatMap_cons, List.flatMap_nil, List.append_nil, List.filter_map]
  have hp : ((fun (t : Txn) => !t.signatures.isEmpty) ∘ c4Txn) = fun _ => true :=
    funext fun n => by simp [c4Txn]
  rw [hp, List.filter_true, List.length_map, List.length_range']

/-- Total observation count of the refuting session. -/
theorem c4_obsUpTo : obsUpTo c4Session 1020 = 51000 := by
  have hfun : ((fun (m : Nat × List Entry) => batchObsCount m.2) ∘
      fun j => ((j, c4Batch j) : Nat × List Entry)) = fun _ => (50 : Nat) :=
    funext fun j => c4_batchObsCount j
  unfold obsUpTo
  rw [List.take_of_length_le (by simp [c4Session])]
  unfold c4Session
  rw [List.map_map, hfun, List.map_const', List.length_range, List.sum_replicate,
    smul_eq_mul]

/-- C4 counterexample: in the 1020-batch refuting session, batch index 1019
ends with 51000 observations performed (a positive multiple of 1000) and
51000 > 50000 entries in the set, yet the code does not clear there (its
counter counts decoded batches, and 1020 is not a multiple of 1000), refuting
the stated policy. -/
theorem dup_cleanup_counterexample : ¬ dupCleanupClaim := by
  intro h
  have hlen : c4Session.length = 1020 := by simp [c4Session]
  have hinv := c4_invariant 1019 (by omega)
  have hmid : midState c4Session 1019 =
      processEntries (stateAfter c4Session 1019) 1019 (c4Batch 1019) := by
    unfold midState
    rw [c4Session_getD 1019 (by omega)]
  obtain ⟨p1, p2, p3⟩ := c4_processEntries 1019 1019 (stateAfter c4Session 1019) hinv.2.2
  have hc : (midState c4Session 1019).sig_cleanup_counter = 1019 := by
    rw [hmid, p1, hinv.1]
  have hl : (midState c4Session 1019).recent_sigs.length = 51000 := by
    rw [hmid, p2, hinv.2.1]
  have hcl : clearedAt c4Session 1019 = false := by
    unfold clearedAt
    rw [hc, hl]
    decide
  have h19 := h c4Session 1019 (by omega)
  rw [hcl] at h19
  have hobs : obsUpTo c4Session (1019 + 1) = 51000 := c4_obsUpTo
  have hfalse : False := by
    have hb := h19.mpr ⟨by rw [hobs]; norm_num, by rw [hobs], by rw [hl]; norm_num⟩
    exact absurd hb (by simp)
  exact hfalse

end Shredstream
